import Mathlib

/-!
Verification development for the Insight-Ink news pipeline (`src/app.py`).

The Python source is shallowly embedded below.  External third-party
components (NLTK tokenizers, the NLTK stopword corpus, scikit-learn's
TF-IDF vectorizer) are handled as follows:

* NLTK `word_tokenize` is modelled as whitespace splitting, which agrees
  with the real tokenizer on the whitespace-separated alphabetic inputs
  used in the concrete theorems below.
* the NLTK English stopword corpus is embedded as a literal list.
* `sent_tokenize` is kept as an explicit function parameter wherever the
  code calls it (the claims never depend on how a particular text is
  split into sentences, only on the sentence list itself).
* the scikit-learn cosine-similarity scores of `summarize` are kept as an
  explicit rational-valued score-vector parameter; the selection logic of
  `summarize` (lines 353-371 of `src/app.py`) is embedded exactly.

All definitions are executable and kernel-reducible so that concrete
inputs can be settled by `decide`.
-/

set_option maxRecDepth 16384

/-! ## Python string primitives (over `List Char`) -/

/-- Python `str.lower()` (ASCII inputs). -/
def pyLower (s : String) : String := ⟨s.data.map Char.toLower⟩

/-- Auxiliary whitespace splitter: Python `str.split()` with no argument
splits on runs of whitespace and drops empty fields. -/
def splitWsAux : List Char → List Char → List String
  | [], [] => []
  | [], acc => [⟨acc.reverse⟩]
  | c :: cs, acc =>
      if c.isWhitespace then
        if acc.isEmpty then splitWsAux cs []
        else (⟨acc.reverse⟩ : String) :: splitWsAux cs []
      else splitWsAux cs (c :: acc)

/-- Python `str.split()` (split on whitespace runs, no empty fields). -/
def pySplitWs (s : String) : List String := splitWsAux s.data []

/-- Python `' '.join(l)`. -/
def joinSp : List String → String
  | [] => ""
  | [s] => s
  | s :: rest => s ++ " " ++ joinSp rest

/-- Python `' '.join(s.split())`: collapse whitespace runs, trim. -/
def normWs (s : String) : String := joinSp (pySplitWs s)

/-- Python `str.strip()` (strip whitespace from both ends). -/
def pyStrip (s : String) : String :=
  ⟨((s.data.dropWhile Char.isWhitespace).reverse.dropWhile Char.isWhitespace).reverse⟩

/-- Python `str.strip(chars)` for an explicit character set. -/
def pyStripSet (cs : List Char) (s : String) : String :=
  ⟨((s.data.dropWhile (· ∈ cs)).reverse.dropWhile (· ∈ cs)).reverse⟩

/-- Python `str.isalpha()`: non-empty and every character alphabetic. -/
def pyIsAlpha (s : String) : Bool := !s.data.isEmpty && s.data.all Char.isAlpha

/-- Python `str.isupper()` (ASCII): has a cased character and every cased
character is upper case. -/
def pyIsUpper (s : String) : Bool :=
  s.data.any Char.isAlpha && s.data.all (fun c => !c.isAlpha || c.isUpper)

/-- Helper for Python `str.title()` : the boolean records whether the
previous character was alphabetic. -/
def pyTitleAux : Bool → List Char → List Char
  | _, [] => []
  | prev, c :: cs =>
      if c.isAlpha then
        (if prev then c.toLower else c.toUpper) :: pyTitleAux true cs
      else c :: pyTitleAux false cs

/-- Python `str.title()` (ASCII). -/
def pyTitle (s : String) : String := ⟨pyTitleAux false s.data⟩

/-- List infix test (Python substring `a in b` at list level). -/
def listInfix [DecidableEq α] : List α → List α → Bool
  | p, [] => p.isEmpty
  | p, a :: l => p.isPrefixOf (a :: l) || listInfix p l

/-- Python substring containment `a in b`. -/
def strIn (a b : String) : Bool := listInfix a.data b.data

/-- Python `str.startswith(pre)`. -/
def pyStartsWith (s pre : String) : Bool := pre.data.isPrefixOf s.data

/-- Python `str.replace(pat, rep)` on char lists: replace every
non-overlapping occurrence, scanning left to right.  (All patterns used by
the source are non-empty; for an empty pattern this returns the input.) -/
def replaceL (pat rep : List Char) : List Char → List Char
  | [] => []
  | x :: xs =>
      if pat.isPrefixOf (x :: xs) then
        if pat.isEmpty then x :: xs
        else rep ++ replaceL pat rep (xs.drop (pat.length - 1))
      else x :: replaceL pat rep xs
  termination_by l => l.length
  decreasing_by
    · simp only [List.length_cons, List.length_drop]; omega
    · simp only [List.length_cons]; omega

/-- Python `str.replace(pat, rep)`. -/
def pyReplace (s pat rep : String) : String := ⟨replaceL pat.data rep.data s.data⟩

/-- The prefix of `l` before the first occurrence of the pattern `pat`
(used for Python `s.split(pat)[0]`). -/
def upToPat (pat : List Char) : List Char → List Char
  | [] => []
  | x :: xs => if pat.isPrefixOf (x :: xs) then [] else x :: upToPat pat xs

/-- Python `s.split(sep)[0]` for a non-empty separator. -/
def pySplitFirst (s sep : String) : String := ⟨upToPat sep.data s.data⟩

/-- Python `s.split(sep)` keeping empty fields (single-character separator). -/
def splitOnCharL (c : Char) : List Char → List (List Char)
  | [] => [[]]
  | x :: xs =>
      match splitOnCharL c xs with
      | [] => if x = c then [[], []] else [[x]]
      | hd :: tl => if x = c then [] :: hd :: tl else (x :: hd) :: tl

/-- Python `s.split(c)` for a single-character separator. -/
def pySplitChar (s : String) (c : Char) : List String :=
  (splitOnCharL c s.data).map (fun l => (⟨l⟩ : String))

/-- Python `sep.join(l)` for a single-character separator. -/
def joinChar (c : Char) : List String → String
  | [] => ""
  | [s] => s
  | s :: rest => s ++ ⟨[c]⟩ ++ joinChar c rest

/-- Python truthy-`or` on an optional string: `title or default`. -/
def pyOrStr (o : Option String) (d : String) : String :=
  match o with
  | none => d
  | some t => if t = "" then d else t

/-! ## Keyword extraction (`get_keywords`, src/app.py lines 249-274) -/

/-- The eleven domain-specific stopwords added by `get_keywords`
(src/app.py line 254). -/
def DOMAIN_STOPS : List String :=
  ["said", "new", "year", "people", "time", "day", "also", "would", "could", "report", "news"]

/-- The NLTK English stopword corpus (`stopwords.words('english')`),
external data loaded by the source (src/app.py line 253).  Only
alphabetic entries of length at least four can ever affect the token
filter of `get_keywords`. -/
def NLTK_STOPWORDS : List String :=
  ["i", "me", "my", "myself", "we", "our", "ours", "ourselves", "you",
   "your", "yours", "yourself", "yourselves", "he", "him", "his",
   "himself", "she", "her", "hers", "herself", "it", "its", "itself",
   "they", "them", "their", "theirs", "themselves", "what", "which",
   "who", "whom", "this", "that", "these", "those", "am", "is", "are",
   "was", "were", "be", "been", "being", "have", "has", "had", "having",
   "do", "does", "did", "doing", "a", "an", "the", "and", "but", "if",
   "or", "because", "as", "until", "while", "of", "at", "by", "for",
   "with", "about", "against", "between", "into", "through", "during",
   "before", "after", "above", "below", "to", "from", "up", "down", "in",
   "out", "on", "off", "over", "under", "again", "further", "then",
   "once", "here", "there", "when", "where", "why", "how", "all", "any",
   "both", "each", "few", "more", "most", "other", "some", "such", "no",
   "nor", "not", "only", "own", "same", "so", "than", "too", "very",
   "s", "t", "can", "will", "just", "don", "should", "now", "d", "ll",
   "m", "o", "re", "ve", "y", "ain", "aren", "couldn", "didn", "doesn",
   "hadn", "hasn", "haven", "isn", "ma", "mightn", "mustn", "needn",
   "shan", "shouldn", "wasn", "weren", "won", "wouldn"]

/-- The stopword set used by `get_keywords`: NLTK English stopwords plus
the domain additions (src/app.py lines 253-254). -/
def keywordStops : List String := NLTK_STOPWORDS ++ DOMAIN_STOPS

/-- NLTK `word_tokenize`, modelled as whitespace splitting.  On the
whitespace-separated, punctuation-free inputs appearing in the theorems
below the real tokenizer returns exactly the whitespace-separated words. -/
def word_tokenize_model (s : String) : List String := pySplitWs s

/-- The filtered token stream of `get_keywords` (src/app.py line 255):
lower-cased tokens of length at least 4, alphabetic, not stopwords. -/
def filteredTokens (text : String) : List String :=
  (word_tokenize_model (pyLower text)).filter
    (fun w => 4 ≤ w.length && pyIsAlpha w && !(keywordStops.contains w))

/-- Adjacent-pair bigrams of the filtered token stream, joined by a
space (`nltk.util.ngrams(filtered, 2)`, src/app.py line 259). -/
def bigramsOf (text : String) : List String :=
  List.zipWith (fun a b => a ++ " " ++ b) (filteredTokens text) (filteredTokens text).tail

/-- `collections.Counter` as an association list: counts in first-insertion
order of the keys. -/
def tally : List String → List (String × Nat) :=
  List.foldl
    (fun acc w =>
      if acc.any (fun p => p.1 == w) then
        acc.map (fun p => if p.1 == w then (p.1, p.2 + 1) else p)
      else acc ++ [(w, 1)])
    []

/-- `Counter.most_common(k)`: stable sort by count descending, first `k`
entries.  Ties keep first-insertion order, as in CPython. -/
def mostCommon (items : List (String × Nat)) (k : Nat) : List (String × Nat) :=
  (List.insertionSort (fun a b : String × Nat => b.2 ≤ a.2) items).take k

/-- Python `str.capitalize()`: first character upper-cased, the rest
lower-cased. -/
def pyCapitalize (s : String) : String :=
  match s.data with
  | [] => ""
  | c :: cs => ⟨c.toUpper :: cs.map Char.toLower⟩

/-- `' '.join([x.capitalize() for x in b.split()])` (src/app.py line 263). -/
def capWords (b : String) : String := joinSp ((pySplitWs b).map pyCapitalize)

/-- The deduplication loop of `get_keywords` (src/app.py lines 264-270):
a candidate is kept only when, case-insensitively, it is neither already
seen nor in a substring relation with an already-accepted candidate. -/
def dedupAux : List (String × Nat) → List String → List (String × Nat) → List (String × Nat)
  | [], _, unique => unique
  | (k, s) :: rest, seen, unique =>
      let kl := pyLower k
      if !(seen.contains kl)
          && !(unique.any (fun u => strIn kl (pyLower u.1) || strIn (pyLower u.1) kl)) then
        dedupAux rest (kl :: seen) (unique ++ [(k, s)])
      else
        dedupAux rest seen unique

/-- The candidate list of `get_keywords` (src/app.py lines 262-263):
capped capitalized unigrams scored `f*2` followed by capped capitalized
bigrams scored `f*4`, each with frequency at least 2. -/
def keywordCands (text : String) (n : Nat) : List (String × Nat) :=
  ((mostCommon (tally (filteredTokens text)) (n * 3)).filter (fun p => 2 ≤ p.2)).map
      (fun p => (pyCapitalize p.1, p.2 * 2))
    ++ ((mostCommon (tally (bigramsOf text)) (n * 2)).filter (fun p => 2 ≤ p.2)).map
      (fun p => (capWords p.1, p.2 * 4))

/-- `get_keywords(text, n)` (src/app.py lines 249-274), success path of
the enclosing try/except. -/
def get_keywords (text : String) (n : Nat) : List String :=
  let filtered := filteredTokens text
  if filtered.isEmpty then []
  else
    let unique := dedupAux (keywordCands text n) [] []
    let sorted := List.insertionSort (fun a b : String × Nat => b.2 ≤ a.2) unique
    (sorted.take n).map Prod.fst

/-! ## Title cleaning (`clean_title`, src/app.py lines 231-247)

`sent_tokenize` (NLTK punkt) is an external, trained sentence tokenizer;
it is passed in as the explicit parameter `split`. -/

/-- The news-site suffixes stripped by `clean_title` (src/app.py line 234). -/
def SITE_NAMES : List String :=
  ["BBC", "Reuters", "CNN", "Hindu", "NDTV", "ESPN", "Variety",
   "TechCrunch", "Bloomberg", "Guardian"]

/-- The final fallback of `clean_title` (src/app.py line 247):
`t.strip(' .-:') or "Article"`. -/
def orArticle (t : String) : String := if t = "" then "Article" else t

theorem orArticle_ne_empty (t : String) : orArticle t ≠ "" := by
  unfold orArticle
  split
  · decide
  · assumption

/-- `clean_title(title, content)` (src/app.py lines 231-247). -/
def clean_title (split : String → List String) (title content : String) : String :=
  let t0 := pyStrip title
  let t1 := SITE_NAMES.foldl
    (fun t s =>
      pyReplace (pyReplace (pyReplace t (" - " ++ s) "") ("| " ++ s) "") (": " ++ s) "")
    t0
  let t2 := pyReplace (pyReplace (pyReplace t1 "NewsNews" "") "Latest" "") "Breaking" ""
  let t3 := normWs t2
  let t4 :=
    if t3 = "" ∨ t3.length < 10 then
      match split content with
      | [] => t3
      | s0 :: _ => if strIn "," s0 then pySplitFirst s0 "," else s0
    else t3
  let t5 :=
    if 120 < t4.length then
      if strIn " - " t4 then pySplitFirst t4 " - "
      else joinSp ((pySplitWs t4).take 18) ++ "..."
    else t4
  let t6 := if pyIsUpper t5 then pyTitle t5 else t5
  orArticle (pyStripSet [' ', '.', '-', ':'] t6)

/-! ## Article extraction (`fetch_article`, src/app.py lines 276-315)

The parsed article page is modelled by the results of the BeautifulSoup
queries the code performs after decomposing script/style/nav/footer/
header/aside elements:

* `h1` is the stripped text of the first `h1` element (`soup.find('h1')`),
  or `none` when the page has no `h1`;
* `containers` lists, in document order, the `article`/`div`/`main`
  elements that carry a `class` attribute, as pairs of the attribute's
  string form (the `str(x)` the class filter lowercases) and the stripped
  texts of the `p` elements inside the container;
* `paras` lists the stripped texts of all `p` elements of the page, in
  document order (so it includes the containers' paragraphs);
* `ogTitle`, `metaTitle` and `docTitle` are the open-graph title meta
  tag, generic title meta tag and document title element.  The code never
  queries them; they exist so that the specification's title-resolution
  order can be stated and compared against the code. -/

structure Page where
  ogTitle : Option String
  metaTitle : Option String
  docTitle : Option String
  h1 : Option String
  containers : List (String × List String)
  paras : List String
  deriving DecidableEq

/-- The record returned by `fetch_article` (the `time` field, a wall-clock
timestamp used only for display, is omitted). -/
structure ArticleRecord where
  title : String
  url : String
  content : String
  deriving DecidableEq

/-- The container class vocabulary (src/app.py line 289). -/
def CONTAINER_KEYS : List String := ["article", "story", "content", "post", "body"]

/-- One paragraph pass: append every paragraph longer than 30 characters,
followed by a space (src/app.py lines 293-296). -/
def addParas (ps : List String) (text : String) : String :=
  ps.foldl (fun t p => if 30 < p.length then t ++ p ++ " " else t) text

/-- The container loop (src/app.py lines 291-298): paragraphs of the
first three matching containers, stopping after a container once the
accumulated text exceeds 300 characters. -/
def containerLoop : List (String × List String) → String → String
  | [], t => t
  | a :: rest, t =>
      let t' := addParas a.2 t
      if 300 < t'.length then t' else containerLoop rest t'

/-- The all-paragraphs fallback loop (src/app.py lines 300-306): the
length check runs after every paragraph, and the text keeps accumulating
on top of whatever the container pass already collected. -/
def paraLoop : List String → String → String
  | [], t => t
  | p :: ps, t =>
      let t' := if 30 < p.length then t ++ p ++ " " else t
      if 500 < t'.length then t' else paraLoop ps t'

/-- The body text resolved by `fetch_article` (src/app.py lines 287-307):
container pass, sub-200-character fallback over all paragraphs, then
whitespace normalization. -/
def articleBody (pg : Page) : String :=
  let arts := pg.containers.filter
    (fun a => CONTAINER_KEYS.any (fun k => strIn k (pyLower a.1)))
  let text1 := containerLoop (arts.take 3) ""
  let text2 := if text1.length < 200 then paraLoop pg.paras text1 else text1
  normWs text2

/-- Python `not title or title.strip() == ''` (src/app.py line 309). -/
def titleBlank : Option String → Bool
  | none => true
  | some t => pyStrip t == ""

/-- `fetch_article(url)` (src/app.py lines 276-315), success path of the
HTTP fetch and parse; `split` stands for NLTK `sent_tokenize`, used by
`clean_title` when a title must be synthesized from the body. -/
def fetch_article (split : String → List String) (pg : Page) (url : String) :
    Option ArticleRecord :=
  let title0 := pg.h1
  let text := articleBody pg
  let title1 :=
    if titleBlank title0 && !(text == "") then some (clean_title split "" text)
    else title0
  if text ≠ "" ∧ 150 < text.length then
    some { title := pyOrStr title1 "Article", url := url, content := text }
  else none

/-- Modelled from the spec: the title-resolution priority order of §4.2
step 2 — open-graph title meta tag, then generic title meta tag, then
document title element, then first level-1 heading, then the literal
fallback `"Article"`, first non-empty winning. -/
def pickTitle : List (Option String) → String
  | [] => "Article"
  | none :: rest => pickTitle rest
  | some t :: rest => if t = "" then pickTitle rest else t

/-- Modelled from the spec: spec-side title resolution for a page. -/
def titleSpec (pg : Page) : String :=
  pickTitle [pg.ogTitle, pg.metaTitle, pg.docTitle, pg.h1]

/-! ## Link discovery (`fetch_category`, src/app.py lines 326-339) -/

/-- Positive path markers (src/app.py line 328). -/
def POS_MARKERS : List String := ["/article", "/story", "/news", "/20", "/blog", "/post"]

/-- Exclusion markers (src/app.py line 329). -/
def NEG_MARKERS : List String := ["video", "gallery", "podcast", "live-reporting", "javascript:", "#"]

/-- `'/'.join(url.split('/')[:3])` (src/app.py line 334): scheme+host of
the listing URL. -/
def baseOf (url : String) : String := joinChar '/' ((pySplitChar url '/').take 3)

/-- The anchor scan of `fetch_category` (src/app.py lines 326-337).  The
`continue` for excluded links skips the early-break check; the break
check itself runs after every other anchor. -/
def linkLoop (base : String) (limit : Nat) : List String → List String → List String
  | [], links => links
  | href :: rest, links =>
      if POS_MARKERS.any (fun p => strIn p (pyLower href)) then
        if NEG_MARKERS.any (fun s => strIn s (pyLower href)) then
          linkLoop base limit rest links
        else
          let links' :=
            if pyStartsWith href "http" then links ++ [href]
            else if pyStartsWith href "/" then links ++ [base ++ href]
            else links
          if limit ≤ links'.length then links' else linkLoop base limit rest links'
      else
        if limit ≤ links.length then links else linkLoop base limit rest links

/-- First-seen-order deduplication (`list(dict.fromkeys(links))`,
src/app.py line 338). -/
def firstDedup : List String → List String → List String
  | _, [] => []
  | seen, x :: xs =>
      if seen.contains x then firstDedup seen xs
      else x :: firstDedup (x :: seen) xs

/-- The link-discovery portion of `fetch_category(url, max_articles,
offset)` (src/app.py lines 326-339): anchors are the `href` values of the
listing page's `a[href]` elements in document order; returns the
deduplicated, windowed candidate list. -/
def discoverLinks (anchors : List String) (url : String)
    (max_articles offset : Nat) : List String :=
  let links := linkLoop (baseOf url) ((max_articles + offset) * 4) anchors []
  let links := firstDedup [] links
  (links.drop offset).take (max_articles * 3)

/-! ## Summarization (`summarize`, src/app.py lines 353-371)

`sent_tokenize` and the TF-IDF/cosine scoring are external (NLTK punkt,
scikit-learn floats); the selection logic is embedded over the sentence
list `sents` and the cosine score vector `scores` (one rational score per
sentence, `cosine_similarity(sv, dv).flatten()`). -/

/-- Multiplication of a rational by 1.3 = 13/10, written through `mkRat`
so that the kernel can evaluate it on concrete scores;
`mulThirteenTenths_eq` below proves it equal to `s * (13 / 10)`. -/
def mulThirteenTenths (s : ℚ) : ℚ := mkRat (13 * s.num) (10 * s.den)

theorem mulThirteenTenths_eq (s : ℚ) : mulThirteenTenths s = s * (13 / 10) := by
  have hden : ((s.den : ℚ)) ≠ 0 := by
    exact_mod_cast s.den_nz
  have h : (s.num : ℚ) = s * s.den := (div_eq_iff hden).mp (Rat.num_div_den s)
  rw [mulThirteenTenths, Rat.mkRat_eq_div]
  push_cast
  field_simp
  rw [h]
  ring

/-- The lead-sentence bonus (src/app.py lines 363-364): multiply the
first score by 1.3 when the score vector is non-empty. -/
def bump : List ℚ → List ℚ
  | [] => []
  | s :: rest => mulThirteenTenths s :: rest

/-- Python `xs[-n:]`: for `n = 0` this is the whole list (`xs[-0:]` is
`xs[0:]`), otherwise the last `min n len` elements. -/
def pyTailSlice (n : Nat) (xs : List α) : List α :=
  if n = 0 then xs else xs.drop (xs.length - n)

/-- `numpy.argsort` (ascending), modelled as a stable sort of the index
range by score.  No theorem below depends on the order of tied scores. -/
def argsortAsc (v : List ℚ) : List Nat :=
  List.insertionSort (fun i j => v.getD i 0 ≤ v.getD j 0) (List.range v.length)

/-- `top = scores.argsort()[-n:][::-1]` (src/app.py line 365): the
indices of the `n` highest-scoring sentences, score-descending. -/
def topIdx (v : List ℚ) (n : Nat) : List Nat := (pyTailSlice n (argsortAsc v)).reverse

/-- `sorted(top.tolist())` (src/app.py line 366): the selected indices in
original position order. -/
def selIdx (v : List ℚ) (n : Nat) : List Nat :=
  List.insertionSort (fun i j : Nat => i ≤ j) (topIdx v n)

/-- The summary sentence list produced by `summarize(text, n)`
(src/app.py lines 353-368): the early return for short documents, the
top-`n` selection re-sorted by position, and the lead-sentence
substitution `summary_sents = [sents[0]] + summary_sents[1:]` when the
first sentence was not selected and has fewer than 30 words. -/
def summarySents (sents : List String) (scores : List ℚ) (n : Nat) : List String :=
  if sents.length ≤ n then sents
  else
    let v := bump scores
    let top := topIdx v n
    let sel := (selIdx v n).map (fun i => sents.getD i "")
    if 0 ∉ top ∧ (pySplitWs (sents.headD "")).length < 30 then
      sents.headD "" :: sel.drop 1
    else sel

/-- `summarize(text, n)` (src/app.py lines 353-369): the returned string
is the space-join of the summary sentences. -/
def summarize (sents : List String) (scores : List ℚ) (n : Nat) : String :=
  joinSp (summarySents sents scores n)

/-! ## Concrete pages used by the theorems below -/

/-- A sentence-splitter stand-in for pages whose title never reaches the
`clean_title` synthesis path (every concrete page below has a non-blank
`h1`, so `sent_tokenize` is never consulted). -/
def splitNone : String → List String := fun _ => []

/-- A 120-character paragraph (no internal whitespace). -/
def paraA : String :=
  "aaaaaaaaaaaaaaaaaaaaaaaaaaaaaaaaaaaaaaaaaaaaaaaaaaaaaaaaaaaaaaaaaaaaaaaaaaaaaaaaaaaaaaaaaaaaaaaaaaaaaaaaaaaaaaaaaaaaaaaa"

/-- A 160-character paragraph (no internal whitespace). -/
def paraB : String :=
  "bbbbbbbbbbbbbbbbbbbbbbbbbbbbbbbbbbbbbbbbbbbbbbbbbbbbbbbbbbbbbbbbbbbbbbbbbbbbbbbbbbbbbbbbbbbbbbbbbbbbbbbbbbbbbbbbbbbbbbbbbbbbbbbbbbbbbbbbbbbbbbbbbbbbbbbbbbbbbbbb"

/-- An article page whose only matching container holds one 120-character
paragraph, which also appears in the page-wide paragraph list: the
container pass collects 121 characters (under 200), so the fallback pass
appends the same paragraph again. -/
def pageDup : Page :=
  { ogTitle := none, metaTitle := none, docTitle := none,
    h1 := some "Headline",
    containers := [("article-body", [paraA])],
    paras := [paraA] }

/-- An article page carrying an open-graph title that differs from its
`h1`, with a 160-character body. -/
def pageOg : Page :=
  { ogTitle := some "OG Headline", metaTitle := none, docTitle := none,
    h1 := some "H1 Headline",
    containers := [],
    paras := [paraB] }

/-- A page with no body text at all. -/
def pageEmpty : Page :=
  { ogTitle := none, metaTitle := none, docTitle := none,
    h1 := some "Headline", containers := [], paras := [] }

/-! ## Claim C1: keyword extraction on the climate example -/

/-- The input text of the spec's keyword-extraction example. -/
def climateText : String := "climate change climate change policy climate change debate"

/-- C1, counterexample: on the climate example the claim fails — the
returned keyword list does contain "Climate" as a separate entry and does
not contain "Climate Change" at all.  (The unigram candidates precede the
bigram candidate in the merged candidate list, so the substring
deduplication accepts "Climate" and "Change" first and then drops
"Climate Change" as a superstring.) -/
theorem get_keywords_climate_counterexample :
    "Climate" ∈ get_keywords climateText 5
    ∧ "Climate Change" ∉ get_keywords climateText 5 := by decide

/-- C1, amended: `get_keywords` on the climate example returns exactly
["Climate", "Change"] — the unigrams, accepted before the bigram
candidate, suppress "Climate Change" via the substring deduplication. -/
theorem get_keywords_climate_eval :
    get_keywords climateText 5 = ["Climate", "Change"] := by decide

/-! ## Claim C7: link discovery example -/

/-- C7: on a listing page with anchors `/news/a1`, `/news/a1` (duplicate),
`/video/x`, `/story/b2` and `maxArticles = 5`, `offset = 0`, link
discovery yields exactly the two links `/news/a1` and `/story/b2`
resolved against the base URL, in first-seen order. -/
theorem discover_links_example :
    discoverLinks ["/news/a1", "/news/a1", "/video/x", "/story/b2"]
      "https://site.example/cat" 5 0 =
    ["https://site.example/news/a1", "https://site.example/story/b2"] := by decide

/-! ## Claim C10: the all-paragraphs fallback appends, re-including text -/

/-- C10: on `pageDup` the container pass collects 121 characters (under
200), so the fallback pass runs over all paragraphs and appends the same
paragraph again; the returned content holds the paragraph's text twice. -/
theorem fetch_article_duplicate_paragraph :
    fetch_article splitNone pageDup "u" =
      some { title := "Headline", url := "u", content := paraA ++ " " ++ paraA }
    ∧ (containerLoop [("article-body", [paraA])] "").length < 200 := by decide

/-! ## Claim C2: title resolution priority -/

/-- C2, counterexample: a page carrying an open-graph title is extracted
with the `h1` text as its title — the open-graph meta tag is never
consulted, so the spec's priority order (open-graph first) fails. -/
theorem fetch_article_title_og_counterexample :
    fetch_article splitNone pageOg "u" =
      some { title := "H1 Headline", url := "u", content := paraB }
    ∧ titleSpec pageOg = "OG Headline"
    ∧ "H1 Headline" ≠ "OG Headline" := by decide

/-- C2, amended: `fetch_article` resolves the title by trying, in order:
the first level-1 heading's stripped text if non-blank, else a title
synthesized from the body by `clean_title` (which itself falls back to
the literal "Article"); the open-graph title meta tag, generic title meta
tag and document title element are never consulted (changing them does
not change the result). -/
theorem fetch_article_title_priority (split : String → List String) (pg : Page)
    (url : String) (r : ArticleRecord) (h : fetch_article split pg url = some r) :
    (∀ t, pg.h1 = some t → pyStrip t ≠ "" → r.title = t)
    ∧ (titleBlank pg.h1 = true → r.title = clean_title split "" (articleBody pg))
    ∧ (∀ og mt dt,
        fetch_article split
          { pg with ogTitle := og, metaTitle := mt, docTitle := dt } url = some r) := by
  have hgate : articleBody pg ≠ "" ∧ 150 < (articleBody pg).length := by
    by_contra hc
    simp only [fetch_article, if_neg hc] at h
    exact Option.noConfusion h
  have hr : ArticleRecord.mk
      (pyOrStr
        (if titleBlank pg.h1 && !(articleBody pg == "") then
          some (clean_title split "" (articleBody pg))
        else pg.h1) "Article")
      url (articleBody pg) = r := by
    simp only [fetch_article, if_pos hgate] at h
    exact Option.some.inj h
  refine ⟨?_, ?_, ?_⟩
  · intro t ht hts
    have htne : t ≠ "" := fun he => hts (by rw [he]; rfl)
    rw [← hr]
    simp only [ht, titleBlank]
    rw [beq_eq_false_iff_ne.mpr hts]
    simp [pyOrStr, htne]
  · intro hblank
    have hne : ¬(articleBody pg == "") = true := by
      simpa using hgate.1
    rw [← hr]
    simp only [hblank, Bool.true_and, Bool.not_eq_true']
    rw [if_pos (by simp [hgate.1])]
    have hct : clean_title split "" (articleBody pg) ≠ "" := by
      simp only [clean_title]
      exact orArticle_ne_empty _
    simp [pyOrStr, hct]
  · intro og mt dt
    cases pg with
    | mk a b c d e f => exact h

/-- C2 witness: the title-priority theorem applied to the concrete page
`pageOg`, whose `h1` is the non-blank "H1 Headline". -/
theorem fetch_article_title_priority_witness :
    fetch_article splitNone pageOg "u" =
      some (ArticleRecord.mk "H1 Headline" "u" paraB)
    ∧ (ArticleRecord.mk "H1 Headline" "u" paraB).title = "H1 Headline" :=
  ⟨by decide,
    (fetch_article_title_priority splitNone pageOg "u"
        (ArticleRecord.mk "H1 Headline" "u" paraB) (by decide)).1
      "H1 Headline" rfl (by decide)⟩

/-! ## Claim C8: the 150-character validity gate -/

/-- C8: whenever the whitespace-normalized body text of a page does not
exceed 150 characters, `fetch_article` returns `none` (not an error);
consequently every record it returns has content longer than 150
characters. -/
theorem fetch_article_length_gate (split : String → List String) (pg : Page)
    (url : String) :
    ((articleBody pg).length ≤ 150 → fetch_article split pg url = none)
    ∧ (∀ r, fetch_article split pg url = some r → 150 < r.content.length) := by
  constructor
  · intro hle
    simp only [fetch_article]
    rw [if_neg]
    intro hc
    omega
  · intro r hr
    by_cases hc : articleBody pg ≠ "" ∧ 150 < (articleBody pg).length
    · simp only [fetch_article, if_pos hc] at hr
      rw [← Option.some.inj hr]
      exact hc.2
    · simp only [fetch_article, if_neg hc] at hr
      exact Option.noConfusion hr

/-- C8 witness: the gate theorem applied to the empty-bodied page. -/
theorem fetch_article_length_gate_witness :
    (articleBody pageEmpty).length ≤ 150
    ∧ fetch_article splitNone pageEmpty "u" = none :=
  ⟨by decide, (fetch_article_length_gate splitNone pageEmpty "u").1 (by decide)⟩

/-! ## Claim C5: short documents are returned unchanged -/

/-- C5: when the document has at most `n` sentences, `summarize` keeps
every sentence unchanged and in original order — the returned string is
the space-join of exactly the input's sentence list. -/
theorem summarize_short_identity (sents : List String) (scores : List ℚ) (n : Nat)
    (h : sents.length ≤ n) :
    summarySents sents scores n = sents ∧ summarize sents scores n = joinSp sents := by
  constructor
  · simp only [summarySents, if_pos h]
  · simp only [summarize, summarySents, if_pos h]

/-- C5 witness: a two-sentence document summarized to three sentences. -/
theorem summarize_short_identity_witness :
    (["Markets rose today.", "Investors cheered."] : List String).length ≤ 3
    ∧ summarySents ["Markets rose today.", "Investors cheered."] [] 3 =
        ["Markets rose today.", "Investors cheered."] :=
  ⟨by decide,
    (summarize_short_identity ["Markets rose today.", "Investors cheered."] [] 3
      (by decide)).1⟩

/-! ## Supporting lemmas on the summarize index machinery -/

theorem bump_length (scores : List ℚ) : (bump scores).length = scores.length := by
  cases scores <;> simp [bump]

theorem getD_zero_eq_headD (l : List α) (d : α) : l.getD 0 d = l.headD d := by
  cases l <;> rfl

theorem pyTailSlice_sublist (n : Nat) (xs : List α) :
    List.Sublist (pyTailSlice n xs) xs := by
  unfold pyTailSlice
  split
  · exact List.Sublist.refl _
  · exact List.drop_sublist _ _

theorem argsortAsc_length (v : List ℚ) : (argsortAsc v).length = v.length :=
  (List.perm_insertionSort _ _).length_eq.trans (List.length_range _)

theorem argsortAsc_nodup (v : List ℚ) : (argsortAsc v).Nodup :=
  (List.perm_insertionSort _ _).symm.nodup (List.nodup_range _)

theorem topIdx_nodup (v : List ℚ) (n : Nat) : (topIdx v n).Nodup := by
  unfold topIdx
  exact List.nodup_reverse.mpr ((argsortAsc_nodup v).sublist (pyTailSlice_sublist n _))

theorem topIdx_bound (v : List ℚ) (n : Nat) : ∀ i ∈ topIdx v n, i < v.length := by
  intro i hi
  unfold topIdx at hi
  rw [List.mem_reverse] at hi
  have h1 : i ∈ argsortAsc v := (pyTailSlice_sublist n _).subset hi
  have h2 : i ∈ List.range v.length := (List.perm_insertionSort _ _).mem_iff.mp h1
  exact List.mem_range.mp h2

theorem topIdx_length (v : List ℚ) (n : Nat) (h1 : 1 ≤ n) (h2 : n ≤ v.length) :
    (topIdx v n).length = n := by
  unfold topIdx pyTailSlice
  rw [if_neg (by omega)]
  rw [List.length_reverse, List.length_drop, argsortAsc_length]
  omega

theorem topIdx_pos (v : List ℚ) (n : Nat) (h : 0 < v.length) :
    0 < (topIdx v n).length := by
  unfold topIdx pyTailSlice
  rw [List.length_reverse]
  split
  · rw [argsortAsc_length]; exact h
  · rw [List.length_drop, argsortAsc_length]; omega

theorem selIdx_perm (v : List ℚ) (n : Nat) :
    List.Perm (selIdx v n) (topIdx v n) := List.perm_insertionSort _ _

theorem selIdx_pairwise_lt (v : List ℚ) (n : Nat) :
    (selIdx v n).Pairwise (· < ·) := by
  have hnd : (selIdx v n).Nodup := (selIdx_perm v n).symm.nodup (topIdx_nodup v n)
  have hs : List.Sorted (fun i j : Nat => i ≤ j) (selIdx v n) :=
    List.sorted_insertionSort _ _
  exact (hs.and hnd).imp (fun hab => lt_of_le_of_ne hab.1 hab.2)

/-- Mapping a strictly increasing list of in-range indices over `getD`
yields a sublist. -/
theorem map_getD_sublist {α : Type} (d : α) :
    ∀ (l : List α) (is : List Nat), is.Pairwise (· < ·) →
      (∀ i ∈ is, i < l.length) →
      List.Sublist (is.map fun i => l.getD i d) l := by
  intro l
  induction l with
  | nil =>
    intro is _ hb
    cases is with
    | nil => simp
    | cons i tl => exact absurd (hb i (List.mem_cons_self i tl)) (by simp)
  | cons a l ih =>
    intro is hp hb
    have key : ∀ (js : List Nat), js.Pairwise (· < ·) → (∀ j ∈ js, 1 ≤ j) →
        (∀ j ∈ js, j < (a :: l).length) →
        (js.map fun i => (a :: l).getD i d) =
          ((js.map fun i => i - 1).map fun i => l.getD i d)
        ∧ List.Sublist ((js.map fun i => i - 1).map fun i => l.getD i d) l := by
      intro js hjp hj1 hjb
      constructor
      · rw [List.map_map]
        apply List.map_congr_left
        intro j hj
        cases j with
        | zero => exact absurd (hj1 0 hj) (by omega)
        | succ k => simp [List.getD]
      · apply ih
        · apply List.pairwise_map.mpr
          exact List.Pairwise.imp_of_mem
            (fun ha hb hab => by
              have := hj1 _ ha
              omega)
            hjp
        · intro i hi
          rcases List.mem_map.mp hi with ⟨j, hj, rfl⟩
          have := hjb j hj
          have := hj1 j hj
          simp only [List.length_cons] at *
          omega
    cases is with
    | nil => simp
    | cons i tl =>
      cases i with
      | zero =>
        have h1 : ∀ j ∈ tl, 1 ≤ j := fun j hj => List.rel_of_pairwise_cons hp hj
        obtain ⟨heq, hsub⟩ :=
          key tl (List.Pairwise.of_cons hp) h1
            (fun j hj => hb j (List.mem_cons_of_mem _ hj))
        rw [List.map_cons, heq]
        have hz : (a :: l).getD 0 d = a := rfl
        rw [hz]
        exact List.Sublist.cons₂ a hsub
      | succ k =>
        have h1 : ∀ j ∈ (k + 1) :: tl, 1 ≤ j := by
          intro j hj
          rcases List.mem_cons.mp hj with rfl | hjtl
          · omega
          · have := List.rel_of_pairwise_cons hp hjtl
            omega
        obtain ⟨heq, hsub⟩ := key ((k + 1) :: tl) hp h1 hb
        rw [heq]
        exact List.Sublist.cons a hsub

/-! ## Claim C4: summary sentences are an in-order sublist of the input -/

/-- C4: the string returned by `summarize` is the space-join of its
summary sentence list, and that list is a sublist of the input's
sentences — a subset appearing in the same relative order. -/
theorem summarize_sublist (sents : List String) (scores : List ℚ) (n : Nat)
    (h : scores.length = sents.length) :
    summarize sents scores n = joinSp (summarySents sents scores n)
    ∧ List.Sublist (summarySents sents scores n) sents := by
  refine ⟨rfl, ?_⟩
  by_cases hle : sents.length ≤ n
  · simp only [summarySents, if_pos hle]
    exact List.Sublist.refl _
  · simp only [summarySents, if_neg hle]
    have hvlen : (bump scores).length = sents.length := by rw [bump_length, h]
    have hpair := selIdx_pairwise_lt (bump scores) n
    have hbound : ∀ i ∈ selIdx (bump scores) n, i < sents.length := by
      intro i hi
      have hit : i ∈ topIdx (bump scores) n := (selIdx_perm _ _).mem_iff.mp hi
      exact hvlen ▸ topIdx_bound _ n i hit
    have hmain := map_getD_sublist "" sents (selIdx (bump scores) n) hpair hbound
    split
    · rename_i hcond
      have h0 : ∀ j ∈ selIdx (bump scores) n, 0 < j := by
        intro j hj
        have hjt : j ∈ topIdx (bump scores) n := (selIdx_perm _ _).mem_iff.mp hj
        rcases Nat.eq_zero_or_pos j with rfl | hpos
        · exact absurd hjt hcond.1
        · exact hpos
      have hpair' : (0 :: (selIdx (bump scores) n).drop 1).Pairwise (· < ·) := by
        constructor
        · intro j hj
          exact h0 j ((List.drop_sublist 1 _).subset hj)
        · exact hpair.sublist (List.drop_sublist 1 _)
      have hbound' : ∀ i ∈ 0 :: (selIdx (bump scores) n).drop 1, i < sents.length := by
        intro i hi
        rcases List.mem_cons.mp hi with rfl | hi'
        · omega
        · exact hbound i ((List.drop_sublist 1 _).subset hi')
      have hres := map_getD_sublist "" sents _ hpair' hbound'
      rw [List.map_cons, getD_zero_eq_headD, List.map_drop] at hres
      exact hres
    · exact hmain

/-- C4 witness: the sublist theorem applied to a three-sentence input. -/
theorem summarize_sublist_witness :
    ([1, 2, 3] : List ℚ).length = (["X.", "Y.", "Z."] : List String).length
    ∧ List.Sublist (summarySents ["X.", "Y.", "Z."] [1, 2, 3] 1) ["X.", "Y.", "Z."] :=
  ⟨by decide, (summarize_sublist ["X.", "Y.", "Z."] [1, 2, 3] 1 (by decide)).2⟩

/-! ## Claim C9: the summary has exactly n sentences (for n at least 1) -/

/-- C9, counterexample: with `n = 0` and a two-sentence document,
`summarize` returns both sentences, not zero of them — Python's
`scores.argsort()[-0:]` is the whole array, so the selection keeps every
sentence. -/
theorem summarize_zero_count_counterexample :
    summarySents ["A.", "B."] [10, 20] 0 = ["A.", "B."]
    ∧ (summarySents ["A.", "B."] [10, 20] 0).length ≠ 0 := by decide

/-- C9, amended: for every `n ≥ 1`, a document with more than `n`
sentences and one score per sentence, the summary sentence list has
exactly `n` sentences — in both the plain-selection branch and the
lead-substitution branch. -/
theorem summarize_count_exact (sents : List String) (scores : List ℚ) (n : Nat)
    (hn : 1 ≤ n) (hlen : n < sents.length) (hs : scores.length = sents.length) :
    (summarySents sents scores n).length = n := by
  have hle : ¬ sents.length ≤ n := by omega
  simp only [summarySents, if_neg hle]
  have hvlen : (bump scores).length = sents.length := by rw [bump_length, hs]
  have htop : (topIdx (bump scores) n).length = n :=
    topIdx_length _ n hn (by omega)
  have hsellen : (selIdx (bump scores) n).length = n :=
    (selIdx_perm _ n).length_eq.trans htop
  split
  · simp only [List.length_cons, List.length_drop, List.length_map, hsellen]
    omega
  · simp [hsellen]

/-- C9 witness: the count theorem applied to a three-sentence document
summarized to two sentences. -/
theorem summarize_count_exact_witness :
    1 ≤ 2 ∧ (summarySents ["P.", "Q.", "R."] [3, 1, 2] 2).length = 2 :=
  ⟨by decide, summarize_count_exact ["P.", "Q.", "R."] [3, 1, 2] 2
    (by decide) (by decide) (by decide)⟩

/-! ## Claim C3: the lead substitution replaces the earliest-position
selected sentence, not the lowest-scoring one -/

/-- C3, counterexample: with four sentences and scores 10, 20, 90, 50,
the selection picks indices 2 and 3; index 3 is the lowest-scoring
selected sentence ("D.", score 50 against 90), yet the substitution
keeps it and drops "C." — the result is "A. D.", not the "A. C." the
claim (replace the lowest-scoring selected sentence) demands. -/
theorem summarize_substitution_counterexample :
    topIdx (bump [10, 20, 90, 50]) 2 = [2, 3]
    ∧ summarize ["A.", "B.", "C.", "D."] [10, 20, 90, 50] 2 = "A. D."
    ∧ summarize ["A.", "B.", "C.", "D."] [10, 20, 90, 50] 2 ≠ "A. C." := by decide

/-- C3, amended: when the document has more than `n` sentences, the first
sentence was not selected and has fewer than 30 words, the first sentence
is substituted for the earliest-position selected sentence (the head of
the position-sorted selection, which is at most every selected index),
keeping the number of summary sentences unchanged. -/
theorem summarize_substitution_earliest (sents : List String) (scores : List ℚ)
    (n : Nat) (hs : scores.length = sents.length) (hlen : n < sents.length)
    (h0 : 0 ∉ topIdx (bump scores) n)
    (hw : (pySplitWs (sents.headD "")).length < 30) :
    summarySents sents scores n =
        sents.headD "" ::
          ((selIdx (bump scores) n).map fun i => sents.getD i "").drop 1
    ∧ (summarySents sents scores n).length =
        ((selIdx (bump scores) n).map fun i => sents.getD i "").length
    ∧ ∀ j ∈ topIdx (bump scores) n, (selIdx (bump scores) n).headD 0 ≤ j := by
  have hle : ¬ sents.length ≤ n := by omega
  have hcond : 0 ∉ topIdx (bump scores) n
      ∧ (pySplitWs (sents.headD "")).length < 30 := ⟨h0, hw⟩
  have hvlen : (bump scores).length = sents.length := by rw [bump_length, hs]
  have hpos : 0 < (topIdx (bump scores) n).length := topIdx_pos _ n (by omega)
  have hselpos : 0 < (selIdx (bump scores) n).length :=
    (selIdx_perm _ n).length_eq ▸ hpos
  refine ⟨?_, ?_, ?_⟩
  · simp only [summarySents, if_neg hle, if_pos hcond]
  · simp only [summarySents, if_neg hle, if_pos hcond,
      List.length_cons, List.length_drop, List.length_map]
    omega
  · intro j hj
    have hjsel : j ∈ selIdx (bump scores) n := (selIdx_perm _ n).mem_iff.mpr hj
    have hsorted : List.Sorted (fun i j : Nat => i ≤ j) (selIdx (bump scores) n) :=
      List.sorted_insertionSort _ _
    cases hsel : selIdx (bump scores) n with
    | nil => rw [hsel] at hjsel; cases hjsel
    | cons a tl =>
      rw [hsel] at hjsel hsorted
      rcases List.mem_cons.mp hjsel with rfl | hjtl
      · simp [List.headD]
      · have := List.rel_of_pairwise_cons hsorted hjtl
        simpa [List.headD] using this

/-- C3 witness: the substitution theorem applied to the four-sentence
document with scores 10, 20, 90, 50 and `n = 2`. -/
theorem summarize_substitution_earliest_witness :
    0 ∉ topIdx (bump [10, 20, 90, 50]) 2
    ∧ summarySents ["A.", "B.", "C.", "D."] [10, 20, 90, 50] 2 =
        (["A.", "B.", "C.", "D."] : List String).headD "" ::
          ((selIdx (bump [10, 20, 90, 50]) 2).map
            fun i => (["A.", "B.", "C.", "D."] : List String).getD i "").drop 1 :=
  ⟨by decide,
    (summarize_substitution_earliest ["A.", "B.", "C.", "D."] [10, 20, 90, 50] 2
      (by decide) (by decide) (by decide) (by decide)).1⟩

/-! ## Claim C6: candidate pools are capped by most_common -/

/-- Every entry produced by the deduplication loop comes from the
accumulator or from the candidate list. -/
theorem mem_dedupAux : ∀ (cands : List (String × Nat)) (seen : List String)
    (unique : List (String × Nat)) (x : String × Nat),
    x ∈ dedupAux cands seen unique → x ∈ unique ∨ x ∈ cands := by
  intro cands
  induction cands with
  | nil =>
    intro seen unique x hx
    exact Or.inl hx
  | cons c rest ih =>
    intro seen unique x hx
    obtain ⟨k, s⟩ := c
    simp only [dedupAux] at hx
    split at hx
    · rcases ih _ _ x hx with hu | hr
      · rcases List.mem_append.mp hu with h1 | h2
        · exact Or.inl h1
        · simp only [List.mem_singleton] at h2
          subst h2
          exact Or.inr (List.mem_cons_self _ _)
      · exact Or.inr (List.mem_cons_of_mem _ hr)
    · rcases ih _ _ x hx with hu | hr
      · exact Or.inl hu
      · exact Or.inr (List.mem_cons_of_mem _ hr)

/-- A token stream yielding seven distinct unigrams of frequency 2 whose
first six are substring-related (so deduplication collapses them) while
the seventh, "zzzz", is unrelated; no bigram repeats. -/
def capText : String :=
  "abcdef abcde abcd bcdef bcde cdef zzzz abcde abcdef abcd bcde bcdef zzzz cdef"

/-- C6, counterexample: "zzzz" is a unigram of the filtered stream with
frequency 2, yet its capitalization never appears in the output, and the
output has a single entry though `count = 2` — because only the
`count*3` most frequent unigrams enter the candidate list
(`wf.most_common(n*3)`), "zzzz", ranked seventh, is never a candidate,
refuting "every unigram appearing at least 2 times becomes a candidate". -/
theorem get_keywords_cap_counterexample :
    get_keywords capText 2 = ["Abcdef"]
    ∧ ("zzzz", 2) ∈ tally (filteredTokens capText)
    ∧ "Zzzz" ∉ get_keywords capText 2 := by decide

/-- C6, amended: only the `n*3` most frequent unigrams and the `n*2` most
frequent bigrams are candidate sources — every keyword `get_keywords`
returns is the capitalization of a unigram among `most_common(n*3)` with
frequency at least 2 (candidate score `f*2`) or of a bigram among
`most_common(n*2)` with frequency at least 2 (candidate score `f*4`);
candidates are then deduplicated, sorted by score descending and cut to
the top `count`. -/
theorem get_keywords_candidates_capped (text : String) (n : Nat) (k : String)
    (hk : k ∈ get_keywords text n) :
    (∃ w f, (w, f) ∈ mostCommon (tally (filteredTokens text)) (n * 3) ∧ 2 ≤ f
        ∧ k = pyCapitalize w)
    ∨ (∃ b f, (b, f) ∈ mostCommon (tally (bigramsOf text)) (n * 2) ∧ 2 ≤ f
        ∧ k = capWords b) := by
  simp only [get_keywords] at hk
  split at hk
  · cases hk
  · rcases List.mem_map.mp hk with ⟨p, hp, rfl⟩
    have hps := (List.take_sublist n _).subset hp
    have hpu : p ∈ dedupAux (keywordCands text n) [] [] :=
      (List.perm_insertionSort _ _).mem_iff.mp hps
    have hpc : p ∈ keywordCands text n := by
      rcases mem_dedupAux _ _ _ _ hpu with h | h
      · cases h
      · exact h
    rcases List.mem_append.mp hpc with h | h
    · left
      rcases List.mem_map.mp h with ⟨q, hq, rfl⟩
      have hqf := List.mem_filter.mp hq
      refine ⟨q.1, q.2, ?_, by simpa using hqf.2, rfl⟩
      simpa using hqf.1
    · right
      rcases List.mem_map.mp h with ⟨q, hq, rfl⟩
      have hqf := List.mem_filter.mp hq
      refine ⟨q.1, q.2, ?_, by simpa using hqf.2, rfl⟩
      simpa using hqf.1

/-- C6 witness: the capped-candidates theorem applied to a stream where
"Alpha" is returned. -/
theorem get_keywords_candidates_capped_witness :
    "Alpha" ∈ get_keywords "alpha beta alpha beta" 1
    ∧ ((∃ w f, (w, f) ∈ mostCommon (tally (filteredTokens "alpha beta alpha beta")) (1 * 3)
          ∧ 2 ≤ f ∧ "Alpha" = pyCapitalize w)
      ∨ (∃ b f, (b, f) ∈ mostCommon (tally (bigramsOf "alpha beta alpha beta")) (1 * 2)
          ∧ 2 ≤ f ∧ "Alpha" = capWords b)) :=
  ⟨by decide,
    get_keywords_candidates_capped "alpha beta alpha beta" 1 "Alpha" (by decide)⟩
